import Mathlib

/-!
Verification of the tree codec (`src/tree/codec.rs`) and the group
configuration module (`openmls/src/group/mls_group/config.rs`) of the
openmls repository, against its natural-language specification.

Machine bytes are modelled as `Nat` values; Rust's integer types keep
them in range, which the validity predicates below make explicit where
a proof needs it.  Fallible Rust functions returning `Result` are
modelled as `Option`-valued Lean functions.
-/

namespace OpenMLS

/-- Fixed-width big-endian byte representation of a natural number
(`w` bytes, most significant first), as used for all multi-byte
integers of the wire format (spec section 6: fixed-width,
protocol-wide byte order). -/
def beBytes : Nat → Nat → List Nat
  | 0, _ => []
  | w + 1, n => (n / 256 ^ w) % 256 :: beBytes w n

/-- Read a fixed-width big-endian integer of `w` bytes from the front
of a byte list, returning the value and the remaining bytes; fails on
a truncated buffer. -/
def readBE : Nat → List Nat → Option (Nat × List Nat)
  | 0, bs => some (0, bs)
  | _ + 1, [] => none
  | w + 1, b :: bs =>
    match readBE w bs with
    | none => none
    | some (v, rest) => some (b * 256 ^ w + v, rest)

/-- The three length-field width classes of the wire format
(`VecSize` in the codec; `VecU8`/`VecU16`/`VecU32` are the widths the
fragment under `src/tree/codec.rs` uses). -/
inductive VecSize
  | VecU8
  | VecU16
  | VecU32
deriving DecidableEq

/-- Byte width of the length field of each `VecSize` class. -/
def VecSize.width : VecSize → Nat
  | .VecU8 => 1
  | .VecU16 => 2
  | .VecU32 => 4

/-- Concatenate the encodings of the elements of a list, failing when
any element fails to encode. -/
def encList (enc : α → Option (List Nat)) : List α → Option (List Nat)
  | [] => some []
  | x :: xs =>
    match enc x, encList enc xs with
    | some b, some bs => some (b ++ bs)
    | _, _ => none

/-- Decode exactly `n` consecutive elements from the front of a byte
list. -/
def decodeN (dec : List Nat → Option (α × List Nat)) :
    Nat → List Nat → Option (List α × List Nat)
  | 0, bs => some ([], bs)
  | n + 1, bs =>
    match dec bs with
    | none => none
    | some (x, r1) =>
      match decodeN dec n r1 with
      | none => none
      | some (xs, r2) => some (x :: xs, r2)

/-- Modelled from the spec: `encode_vec` of the codec crate is not in
the given fragment (only its call sites are).  Per spec section 6, a
sequence is written as a length field of the `VecSize`-selected width
followed by the elements; the field holds the element count for
structured-element sequences and the byte length for byte sequences
(the two agree for byte sequences, each byte encoding to one byte).
Encoding fails when the count does not fit the width. -/
def encode_vec (sz : VecSize) (enc : α → Option (List Nat)) (xs : List α) :
    Option (List Nat) :=
  match encList enc xs with
  | none => none
  | some payload =>
    if xs.length < 256 ^ sz.width then
      some (beBytes sz.width xs.length ++ payload)
    else none

/-- Modelled from the spec: `decode_vec`, the exact left inverse of
`encode_vec` (spec sections 4.3, 8 and 9); fails on a truncated buffer
or a failing element decode. -/
def decode_vec (sz : VecSize) (dec : List Nat → Option (α × List Nat))
    (bs : List Nat) : Option (List α × List Nat) :=
  match readBE sz.width bs with
  | none => none
  | some (n, r) => decodeN dec n r

/-- Encoding of one machine byte (`u8::encode`): the byte itself. -/
def u8Encode (n : Nat) : Option (List Nat) := some [n]

/-- Decoding of one machine byte; fails on an empty buffer. -/
def decU8 : List Nat → Option (Nat × List Nat)
  | [] => none
  | b :: r => some (b, r)

/-- Modelled from the spec: optional fields (`Option<KeyPackage>`,
`Option<ParentNode>` inside `Node`) follow the tagged-variant rule of
spec section 6: a one-byte discriminant (0 = absent, 1 = present)
immediately followed by the payload when present. -/
def encodeOption (enc : α → Option (List Nat)) : Option α → Option (List Nat)
  | none => some [0]
  | some x =>
    match enc x with
    | none => none
    | some b => some (1 :: b)

/-- Modelled from the spec: left inverse of `encodeOption`; an
unrecognized discriminant byte is a decode error. -/
def decodeOption (dec : List Nat → Option (α × List Nat)) :
    List Nat → Option (Option α × List Nat)
  | [] => none
  | 0 :: r => some (none, r)
  | 1 :: r =>
    match dec r with
    | none => none
    | some (x, r1) => some (some x, r1)
  | _ => none

/-- The tag of a tree slot.  Modelled from the spec (section 3): the
three shapes are Empty, Leaf and Parent; the numeric discriminant
values are not visible in the fragment, so they are fixed here as
0, 1, 2 in declaration order. -/
inductive NodeType
  | Empty
  | Leaf
  | Parent
deriving DecidableEq

/-- The one-byte discriminant of a `NodeType` (`*self as u8` in the
source). -/
def NodeType.toU8 : NodeType → Nat
  | .Empty => 0
  | .Leaf => 1
  | .Parent => 2

/-- Modelled from the spec: the inverse discriminant table
(`NodeType::from(u8)`); any byte that is not a recognized discriminant
is a decode error (spec section 6). -/
def NodeType.fromU8 (b : Nat) : Option NodeType :=
  if b = 0 then some NodeType.Empty
  else if b = 1 then some NodeType.Leaf
  else if b = 2 then some NodeType.Parent
  else none

/-- `NodeType::encode`: the discriminant byte (source
`src/tree/codec.rs`, `(*self as u8).encode`). -/
def NodeType.encode (nt : NodeType) : Option (List Nat) := some [nt.toU8]

/-- Modelled from the spec: `NodeType::decode`, left inverse of the
encoder; fails on a truncated buffer or an unknown discriminant. -/
def NodeType.decode : List Nat → Option (NodeType × List Nat)
  | [] => none
  | b :: r =>
    match NodeType.fromU8 b with
    | none => none
    | some nt => some (nt, r)

/-- Modelled from the spec: a `KeyPackage` is an opaque signed
credential-plus-public-key blob (spec section 3); on the wire it is a
2-byte length-prefixed byte blob (spec section 6, key blobs carry 1-
or 2-byte length-style prefixes). -/
structure KeyPackage where
  bytes : List Nat
deriving DecidableEq

def KeyPackage.encode (kp : KeyPackage) : Option (List Nat) :=
  encode_vec VecSize.VecU16 u8Encode kp.bytes

def KeyPackage.decode (bs : List Nat) : Option (KeyPackage × List Nat) :=
  match decode_vec VecSize.VecU16 decU8 bs with
  | none => none
  | some (l, r) => some (⟨l⟩, r)

/-- Modelled from the spec: an HPKE public key, an opaque key byte
blob written with a 2-byte length-style prefix (spec section 6). -/
structure HPKEPublicKey where
  bytes : List Nat
deriving DecidableEq

def HPKEPublicKey.encode (pk : HPKEPublicKey) : Option (List Nat) :=
  encode_vec VecSize.VecU16 u8Encode pk.bytes

def HPKEPublicKey.decode (bs : List Nat) : Option (HPKEPublicKey × List Nat) :=
  match decode_vec VecSize.VecU16 decU8 bs with
  | none => none
  | some (l, r) => some (⟨l⟩, r)

/-- Modelled from the spec: one HPKE ciphertext of an update-path
node, a byte blob of fixed-but-variable length (spec sections 3, 6),
written with a 2-byte length-style prefix. -/
structure HpkeCiphertext where
  bytes : List Nat
deriving DecidableEq

def HpkeCiphertext.encode (ct : HpkeCiphertext) : Option (List Nat) :=
  encode_vec VecSize.VecU16 u8Encode ct.bytes

def HpkeCiphertext.decode (bs : List Nat) : Option (HpkeCiphertext × List Nat) :=
  match decode_vec VecSize.VecU16 decU8 bs with
  | none => none
  | some (l, r) => some (⟨l⟩, r)

/-- Modelled from the spec: the payload of a parent slot — an
intermediate public key plus the ordered set of unmerged leaf indices
(spec section 3); the index list is written as a 4-byte count-prefixed
sequence of fixed-width 4-byte integers. -/
structure ParentNode where
  public_key : HPKEPublicKey
  unmerged_leaves : List Nat
deriving DecidableEq

def ParentNode.encode (pn : ParentNode) : Option (List Nat) :=
  match pn.public_key.encode,
      encode_vec VecSize.VecU32 (fun i => some (beBytes 4 i)) pn.unmerged_leaves with
  | some b1, some b2 => some (b1 ++ b2)
  | _, _ => none

def ParentNode.decode (bs : List Nat) : Option (ParentNode × List Nat) :=
  match HPKEPublicKey.decode bs with
  | none => none
  | some (pk, r1) =>
    match decode_vec VecSize.VecU32 (readBE 4) r1 with
    | none => none
    | some (ul, r2) => some (⟨pk, ul⟩, r2)

/-- Every unmerged leaf index fits the fixed 4-byte integer field
(guaranteed by Rust's `u32` type). -/
def ParentNode.valid (pn : ParentNode) : Bool :=
  pn.unmerged_leaves.all fun i => decide (i < 256 ^ 4)

/-- One slot of the ratchet tree: a tag plus the optional leaf and
parent payloads, as the `Node` struct of the source. -/
structure Node where
  node_type : NodeType
  key_package : Option KeyPackage
  node : Option ParentNode
deriving DecidableEq

/-- `Node::encode` (source `src/tree/codec.rs`): tag, then optional
key package, then optional parent payload. -/
def Node.encode (nd : Node) : Option (List Nat) :=
  match nd.node_type.encode, encodeOption KeyPackage.encode nd.key_package,
      encodeOption ParentNode.encode nd.node with
  | some b1, some b2, some b3 => some (b1 ++ b2 ++ b3)
  | _, _, _ => none

/-- Modelled from the spec: `Node::decode`, the left inverse of
`Node::encode`, field by field in encoding order (the shape also
appears commented out in the source). -/
def Node.decode (bs : List Nat) : Option (Node × List Nat) :=
  match NodeType.decode bs with
  | none => none
  | some (nt, r1) =>
    match decodeOption KeyPackage.decode r1 with
    | none => none
    | some (kp, r2) =>
      match decodeOption ParentNode.decode r2 with
      | none => none
      | some (pn, r3) => some (⟨nt, kp, pn⟩, r3)

def Node.valid (nd : Node) : Bool :=
  match nd.node with
  | none => true
  | some pn => pn.valid

/-- Modelled from the spec: one ephemeral HPKE key pair of the local
member's leaf-to-root path (spec section 3); each half is an opaque
key byte blob with a 2-byte length-style prefix. -/
structure HPKEKeyPair where
  private_key : List Nat
  public_key : List Nat
deriving DecidableEq

def HPKEKeyPair.encode (kp : HPKEKeyPair) : Option (List Nat) :=
  match encode_vec VecSize.VecU16 u8Encode kp.private_key,
      encode_vec VecSize.VecU16 u8Encode kp.public_key with
  | some b1, some b2 => some (b1 ++ b2)
  | _, _ => none

def HPKEKeyPair.decode (bs : List Nat) : Option (HPKEKeyPair × List Nat) :=
  match decode_vec VecSize.VecU16 decU8 bs with
  | none => none
  | some (sk, r1) =>
    match decode_vec VecSize.VecU16 decU8 r1 with
    | none => none
    | some (pk, r2) => some (⟨sk, pk⟩, r2)

/-- The ordered sequence of path key pairs, as the `PathKeypairs`
struct of the source. -/
structure PathKeypairs where
  keypairs : List HPKEKeyPair
deriving DecidableEq

/-- `PathKeypairs::encode` (source `src/tree/codec.rs`):
`encode_vec(VecSize::VecU32, buffer, &self.keypairs)`. -/
def PathKeypairs.encode (pk : PathKeypairs) : Option (List Nat) :=
  encode_vec VecSize.VecU32 HPKEKeyPair.encode pk.keypairs

/-- Modelled from the spec: `PathKeypairs::decode`, left inverse of
the encoder (shape commented out in the source). -/
def PathKeypairs.decode (bs : List Nat) : Option (PathKeypairs × List Nat) :=
  match decode_vec VecSize.VecU32 HPKEKeyPair.decode bs with
  | none => none
  | some (l, r) => some (⟨l⟩, r)

/-- The ratchet tree state, as the `RatchetTree` struct of the
source: ciphersuite id, node sequence, path key pairs, own leaf
index. -/
structure RatchetTree where
  ciphersuite : Nat
  nodes : List Node
  path_keypairs : PathKeypairs
  own_node_index : Nat
deriving DecidableEq

/-- `RatchetTree::encode` (source `src/tree/codec.rs`): ciphersuite
id (a fixed 2-byte integer), 4-byte count-prefixed node sequence,
`PathKeypairs`, then the own leaf index `as_u32` as a plain fixed
4-byte integer. -/
def RatchetTree.encode (rt : RatchetTree) : Option (List Nat) :=
  match encode_vec VecSize.VecU32 Node.encode rt.nodes,
      rt.path_keypairs.encode with
  | some b2, some b3 =>
    some (beBytes 2 rt.ciphersuite ++ b2 ++ b3 ++ beBytes 4 rt.own_node_index)
  | _, _ => none

/-- Modelled from the spec: `RatchetTree::decode`, the exact left
inverse of the encoder, field by field in encoding order. -/
def RatchetTree.decode (bs : List Nat) : Option (RatchetTree × List Nat) :=
  match readBE 2 bs with
  | none => none
  | some (cs, r1) =>
    match decode_vec VecSize.VecU32 Node.decode r1 with
    | none => none
    | some (nodes, r2) =>
      match PathKeypairs.decode r2 with
      | none => none
      | some (pkps, r3) =>
        match readBE 4 r3 with
        | none => none
        | some (idx, r4) => some (⟨cs, nodes, pkps, idx⟩, r4)

/-- The fixed-width integer fields of a `RatchetTree` are in range
(guaranteed by Rust's `u16`/`u32` types). -/
def RatchetTree.valid (rt : RatchetTree) : Bool :=
  decide (rt.ciphersuite < 256 ^ 2) && rt.nodes.all Node.valid &&
    decide (rt.own_node_index < 256 ^ 4)

/-- One node of an update path, as the `UpdatePathNode` struct of the
source. -/
structure UpdatePathNode where
  public_key : HPKEPublicKey
  encrypted_path_secret : List HpkeCiphertext
deriving DecidableEq

/-- `UpdatePathNode::encode` (source `src/tree/codec.rs`): public
key, then 4-byte count-prefixed ciphertext sequence. -/
def UpdatePathNode.encode (n : UpdatePathNode) : Option (List Nat) :=
  match n.public_key.encode,
      encode_vec VecSize.VecU32 HpkeCiphertext.encode n.encrypted_path_secret with
  | some b1, some b2 => some (b1 ++ b2)
  | _, _ => none

/-- Modelled from the spec: `UpdatePathNode::decode`, left inverse of
the encoder (shape commented out in the source). -/
def UpdatePathNode.decode (bs : List Nat) : Option (UpdatePathNode × List Nat) :=
  match HPKEPublicKey.decode bs with
  | none => none
  | some (pk, r1) =>
    match decode_vec VecSize.VecU32 HpkeCiphertext.decode r1 with
    | none => none
    | some (cts, r2) => some (⟨pk, cts⟩, r2)

/-- An update path, as the `UpdatePath` struct of the source. -/
structure UpdatePath where
  leaf_key_package : KeyPackage
  nodes : List UpdatePathNode
deriving DecidableEq

/-- `UpdatePath::encode` (source `src/tree/codec.rs`): leaf key
package, then 2-byte count-prefixed node sequence
(`encode_vec(VecSize::VecU16, buffer, &self.nodes)`). -/
def UpdatePath.encode (up : UpdatePath) : Option (List Nat) :=
  match up.leaf_key_package.encode,
      encode_vec VecSize.VecU16 UpdatePathNode.encode up.nodes with
  | some b1, some b2 => some (b1 ++ b2)
  | _, _ => none

/-- Modelled from the spec: `UpdatePath::decode`, left inverse of the
encoder (shape commented out in the source). -/
def UpdatePath.decode (bs : List Nat) : Option (UpdatePath × List Nat) :=
  match KeyPackage.decode bs with
  | none => none
  | some (kp, r1) =>
    match decode_vec VecSize.VecU16 UpdatePathNode.decode r1 with
    | none => none
    | some (nodes, r2) => some (⟨kp, nodes⟩, r2)

/-- One node of the application secret tree, as the `ASTreeNode`
struct of the source: a single secret byte string. -/
structure ASTreeNode where
  secret : List Nat
deriving DecidableEq

/-- `ASTreeNode::encode` (source `src/tree/codec.rs`): the secret as
a 1-byte length-prefixed blob (`encode_vec(VecSize::VecU8, ...)`). -/
def ASTreeNode.encode (a : ASTreeNode) : Option (List Nat) :=
  encode_vec VecSize.VecU8 u8Encode a.secret

/-- Modelled from the spec: `ASTreeNode::decode`, left inverse of the
encoder (shape commented out in the source). -/
def ASTreeNode.decode (bs : List Nat) : Option (ASTreeNode × List Nat) :=
  match decode_vec VecSize.VecU8 decU8 bs with
  | none => none
  | some (l, r) => some (⟨l⟩, r)

/-- `dec` is a total left inverse of `enc` on the valid values: every
successfully encoded valid value decodes back to itself, whatever
bytes follow it in the buffer. -/
def DecodeRoundTrip (enc : α → Option (List Nat))
    (dec : List Nat → Option (α × List Nat)) (valid : α → Bool) : Prop :=
  ∀ x bs rest, valid x = true → enc x = some bs →
    dec (bs ++ rest) = some (x, rest)

/-- `enc` is injective over the valid value space: two valid values
with the same successful encoding are equal. -/
def EncodeInjectiveOn (enc : α → Option (List Nat)) (valid : α → Bool) : Prop :=
  ∀ x y bs, valid x = true → valid y = true →
    enc x = some bs → enc y = some bs → x = y

/-- Values that carry no side condition. -/
def anyValid : α → Bool := fun _ => true

/-- The byte list produced by an encoder, read off an `Option` result
(empty when the encoder failed; only used where success is known). -/
def encodeD (enc : α → Option (List Nat)) (x : α) : List Nat :=
  (enc x).getD []

/-- The concatenated element encodings of a list, read off an
`Option` result (empty when any element failed; only used where
success is known). -/
def encListD (enc : α → Option (List Nat)) (xs : List α) : List Nat :=
  (encList enc xs).getD []

/-- The two message framings (`WireFormat` variants used by
`openmls/src/group/mls_group/config.rs`). -/
inductive WireFormat
  | PublicMessage
  | PrivateMessage
deriving DecidableEq

/-- `IncomingWireFormatPolicy` of the source. -/
inductive IncomingWireFormatPolicy
  | AlwaysCiphertext
  | AlwaysPlaintext
  | Mixed
deriving DecidableEq

/-- `IncomingWireFormatPolicy::is_compatible_with` of the source. -/
def IncomingWireFormatPolicy.is_compatible_with :
    IncomingWireFormatPolicy → WireFormat → Bool
  | .AlwaysCiphertext, wf => decide (wf = WireFormat.PrivateMessage)
  | .AlwaysPlaintext, wf => decide (wf = WireFormat.PublicMessage)
  | .Mixed, wf =>
    decide (wf = WireFormat.PrivateMessage) ||
      decide (wf = WireFormat.PublicMessage)

/-- `OutgoingWireFormatPolicy` of the source. -/
inductive OutgoingWireFormatPolicy
  | AlwaysCiphertext
  | AlwaysPlaintext
deriving DecidableEq

/-- `WireFormatPolicy` of the source: an outgoing and an incoming
half. -/
structure WireFormatPolicy where
  outgoing : OutgoingWireFormatPolicy
  incoming : IncomingWireFormatPolicy
deriving DecidableEq

/-- `impl From<OutgoingWireFormatPolicy> for WireFormat` of the
source. -/
def WireFormat.fromOutgoing : OutgoingWireFormatPolicy → WireFormat
  | .AlwaysCiphertext => .PrivateMessage
  | .AlwaysPlaintext => .PublicMessage

/-- `PURE_PLAINTEXT_WIRE_FORMAT_POLICY` of the source. -/
def PURE_PLAINTEXT_WIRE_FORMAT_POLICY : WireFormatPolicy :=
  { outgoing := .AlwaysPlaintext, incoming := .AlwaysPlaintext }

/-- `PURE_CIPHERTEXT_WIRE_FORMAT_POLICY` of the source. -/
def PURE_CIPHERTEXT_WIRE_FORMAT_POLICY : WireFormatPolicy :=
  { outgoing := .AlwaysCiphertext, incoming := .AlwaysCiphertext }

/-- `MIXED_PLAINTEXT_WIRE_FORMAT_POLICY` of the source. -/
def MIXED_PLAINTEXT_WIRE_FORMAT_POLICY : WireFormatPolicy :=
  { outgoing := .AlwaysPlaintext, incoming := .Mixed }

/-- `MIXED_CIPHERTEXT_WIRE_FORMAT_POLICY` of the source. -/
def MIXED_CIPHERTEXT_WIRE_FORMAT_POLICY : WireFormatPolicy :=
  { outgoing := .AlwaysCiphertext, incoming := .Mixed }

/-- `WIRE_FORMAT_POLICIES` of the source: all valid wire format
policy combinations. -/
def WIRE_FORMAT_POLICIES : List WireFormatPolicy :=
  [PURE_PLAINTEXT_WIRE_FORMAT_POLICY, PURE_CIPHERTEXT_WIRE_FORMAT_POLICY,
    MIXED_PLAINTEXT_WIRE_FORMAT_POLICY, MIXED_CIPHERTEXT_WIRE_FORMAT_POLICY]

/-- `impl Default for WireFormatPolicy` of the source. -/
def WireFormatPolicy.defaultPolicy : WireFormatPolicy :=
  PURE_CIPHERTEXT_WIRE_FORMAT_POLICY

/-- Modelled from the spec: opaque collaborator type
(`RequiredCapabilitiesExtension`), out of scope per spec section 1;
only its identity matters to the configuration claims. -/
structure RequiredCapabilitiesExtension where
  val : Nat
deriving DecidableEq

/-- Modelled from the spec: opaque collaborator type
(`ExternalSendersExtension`), out of scope per spec section 1. -/
structure ExternalSendersExtension where
  val : Nat
deriving DecidableEq

/-- Modelled from the spec: opaque collaborator type
(`SenderRatchetConfiguration`), out of scope per spec section 1. -/
structure SenderRatchetConfiguration where
  val : Nat
deriving DecidableEq

/-- Modelled from the spec: opaque collaborator type (`Lifetime`),
out of scope per spec section 1. -/
structure Lifetime where
  val : Nat
deriving DecidableEq

/-- Modelled from the spec: opaque collaborator type
(`CryptoConfig`), out of scope per spec section 1. -/
structure CryptoConfig where
  val : Nat
deriving DecidableEq

/-- `MlsGroupConfig` of the source, with its ten fields. -/
structure MlsGroupConfig where
  wire_format_policy : WireFormatPolicy
  padding_size : Nat
  max_past_epochs : Nat
  number_of_resumption_psks : Nat
  use_ratchet_tree_extension : Bool
  required_capabilities : RequiredCapabilitiesExtension
  external_senders : ExternalSendersExtension
  sender_ratchet_configuration : SenderRatchetConfiguration
  lifetime : Lifetime
  crypto_config : CryptoConfig
deriving DecidableEq

/-- The `#[derive(Default)]` configuration of the source:
`WireFormatPolicy` uses its own `Default` impl
(`PURE_CIPHERTEXT_WIRE_FORMAT_POLICY`); the numeric fields default to
0 and the flag to `false`; the opaque collaborator types take their
own defaults, modelled here by their zero values. -/
def MlsGroupConfig.defaultConfig : MlsGroupConfig where
  wire_format_policy := WireFormatPolicy.defaultPolicy
  padding_size := 0
  max_past_epochs := 0
  number_of_resumption_psks := 0
  use_ratchet_tree_extension := false
  required_capabilities := ⟨0⟩
  external_senders := ⟨0⟩
  sender_ratchet_configuration := ⟨0⟩
  lifetime := ⟨0⟩
  crypto_config := ⟨0⟩

/-- `MlsGroupConfigBuilder` of the source: a wrapper around the
accumulated configuration. -/
structure MlsGroupConfigBuilder where
  config : MlsGroupConfig
deriving DecidableEq

/-- `MlsGroupConfigBuilder::new` of the source. -/
def MlsGroupConfigBuilder.new : MlsGroupConfigBuilder :=
  ⟨MlsGroupConfig.defaultConfig⟩

/-- Setter `wire_format_policy` of the builder. -/
def MlsGroupConfigBuilder.wire_format_policy (b : MlsGroupConfigBuilder)
    (v : WireFormatPolicy) : MlsGroupConfigBuilder :=
  ⟨{ b.config with wire_format_policy := v }⟩

/-- Setter `padding_size` of the builder. -/
def MlsGroupConfigBuilder.padding_size (b : MlsGroupConfigBuilder)
    (v : Nat) : MlsGroupConfigBuilder :=
  ⟨{ b.config with padding_size := v }⟩

/-- Setter `max_past_epochs` of the builder. -/
def MlsGroupConfigBuilder.max_past_epochs (b : MlsGroupConfigBuilder)
    (v : Nat) : MlsGroupConfigBuilder :=
  ⟨{ b.config with max_past_epochs := v }⟩

/-- Setter `number_of_resumption_psks` of the builder. -/
def MlsGroupConfigBuilder.number_of_resumption_psks (b : MlsGroupConfigBuilder)
    (v : Nat) : MlsGroupConfigBuilder :=
  ⟨{ b.config with number_of_resumption_psks := v }⟩

/-- Setter `use_ratchet_tree_extension` of the builder. -/
def MlsGroupConfigBuilder.use_ratchet_tree_extension (b : MlsGroupConfigBuilder)
    (v : Bool) : MlsGroupConfigBuilder :=
  ⟨{ b.config with use_ratchet_tree_extension := v }⟩

/-- Setter `required_capabilities` of the builder. -/
def MlsGroupConfigBuilder.required_capabilities (b : MlsGroupConfigBuilder)
    (v : RequiredCapabilitiesExtension) : MlsGroupConfigBuilder :=
  ⟨{ b.config with required_capabilities := v }⟩

/-- Setter `sender_ratchet_configuration` of the builder. -/
def MlsGroupConfigBuilder.sender_ratchet_configuration
    (b : MlsGroupConfigBuilder) (v : SenderRatchetConfiguration) :
    MlsGroupConfigBuilder :=
  ⟨{ b.config with sender_ratchet_configuration := v }⟩

/-- Setter `lifetime` of the builder. -/
def MlsGroupConfigBuilder.lifetime (b : MlsGroupConfigBuilder)
    (v : Lifetime) : MlsGroupConfigBuilder :=
  ⟨{ b.config with lifetime := v }⟩

/-- Setter `crypto_config` of the builder. -/
def MlsGroupConfigBuilder.crypto_config (b : MlsGroupConfigBuilder)
    (v : CryptoConfig) : MlsGroupConfigBuilder :=
  ⟨{ b.config with crypto_config := v }⟩

/-- Setter `external_senders` of the builder. -/
def MlsGroupConfigBuilder.external_senders (b : MlsGroupConfigBuilder)
    (v : ExternalSendersExtension) : MlsGroupConfigBuilder :=
  ⟨{ b.config with external_senders := v }⟩

/-- `MlsGroupConfigBuilder::build` of the source. -/
def MlsGroupConfigBuilder.build (b : MlsGroupConfigBuilder) : MlsGroupConfig :=
  b.config

/-- Concrete example key package. -/
def kp0 : KeyPackage := ⟨[10, 20]⟩

/-- Concrete example leaf node. -/
def node0 : Node := ⟨NodeType.Leaf, some kp0, none⟩

/-- Concrete example parent node. -/
def nodeP : Node := ⟨NodeType.Parent, none, some ⟨⟨[5]⟩, [0, 2]⟩⟩

/-- Concrete example path key pairs. -/
def pkps0 : PathKeypairs := ⟨[⟨[1], [2]⟩]⟩

/-- Concrete example ratchet tree. -/
def rt0 : RatchetTree := ⟨1, [node0, nodeP], pkps0, 0⟩

/-- Concrete example update path node. -/
def upn0 : UpdatePathNode := ⟨⟨[3]⟩, [⟨[4, 5]⟩]⟩

/-- Concrete example update path. -/
def up0 : UpdatePath := ⟨kp0, [upn0]⟩

/-- Concrete example secret tree node. -/
def ast0 : ASTreeNode := ⟨[7, 8]⟩

/-- Concrete update path with an empty key package and no nodes. -/
def upEmpty : UpdatePath := ⟨⟨[]⟩, []⟩

theorem readBE_beBytes (w n : Nat) (rest : List Nat) :
    readBE w (beBytes w n ++ rest) = some (n % 256 ^ w, rest) := by
  induction w with
  | zero => simp [beBytes, readBE, Nat.mod_one]
  | succ w ih =>
    simp only [beBytes, readBE, List.cons_append, List.append_eq, ih]
    have h : n % 256 ^ (w + 1) = n / 256 ^ w % 256 * 256 ^ w + n % 256 ^ w := by
      rw [pow_succ, Nat.mod_mul]
      ring
    rw [h]

theorem readBE_beBytes_of_lt (w n : Nat) (rest : List Nat) (h : n < 256 ^ w) :
    readBE w (beBytes w n ++ rest) = some (n, rest) := by
  rw [readBE_beBytes, Nat.mod_eq_of_lt h]

theorem decodeN_encList (enc : α → Option (List Nat))
    (dec : List Nat → Option (α × List Nat)) (xs : List α)
    (hel : ∀ x ∈ xs, ∀ b r, enc x = some b → dec (b ++ r) = some (x, r)) :
    ∀ ps rest, encList enc xs = some ps →
      decodeN dec xs.length (ps ++ rest) = some (xs, rest) := by
  induction xs with
  | nil =>
    intro ps rest h
    simp only [encList, Option.some.injEq] at h
    subst h
    simp [decodeN]
  | cons x xs ih =>
    intro ps rest h
    simp only [encList] at h
    cases hx : enc x with
    | none => rw [hx] at h; simp at h
    | some b =>
      cases hxs : encList enc xs with
      | none => rw [hx, hxs] at h; simp at h
      | some bs =>
        rw [hx, hxs] at h
        simp only [Option.some.injEq] at h
        subst h
        have hd : dec (b ++ (bs ++ rest)) = some (x, bs ++ rest) :=
          hel x (by simp) b (bs ++ rest) hx
        have ht : decodeN dec xs.length (bs ++ rest) = some (xs, rest) :=
          ih (fun y hy => hel y (by simp [hy])) bs rest hxs
        simp only [List.length_cons, decodeN, List.append_assoc, hd, ht]

theorem decode_vec_encode_vec (sz : VecSize) (enc : α → Option (List Nat))
    (dec : List Nat → Option (α × List Nat)) (xs : List α) (bs rest : List Nat)
    (hel : ∀ x ∈ xs, ∀ b r, enc x = some b → dec (b ++ r) = some (x, r))
    (h : encode_vec sz enc xs = some bs) :
    decode_vec sz dec (bs ++ rest) = some (xs, rest) := by
  unfold encode_vec at h
  split at h
  · simp at h
  · rename_i payload hxs
    split at h
    · rename_i hlen
      simp only [Option.some.injEq] at h
      subst h
      unfold decode_vec
      rw [List.append_assoc, readBE_beBytes_of_lt sz.width xs.length _ hlen]
      exact decodeN_encList enc dec xs hel payload rest hxs
    · simp at h

theorem decU8_u8Encode (n : Nat) (b r : List Nat) (h : u8Encode n = some b) :
    decU8 (b ++ r) = some (n, r) := by
  simp only [u8Encode, Option.some.injEq] at h
  subst h
  rfl

theorem encList_u8 (l : List Nat) : encList u8Encode l = some l := by
  induction l with
  | nil => rfl
  | cons x xs ih => simp [encList, u8Encode, ih]

theorem decodeOption_encodeOption (enc : α → Option (List Nat))
    (dec : List Nat → Option (α × List Nat)) (o : Option α) (b r : List Nat)
    (hel : ∀ x ∈ o, ∀ b1 r1, enc x = some b1 → dec (b1 ++ r1) = some (x, r1))
    (h : encodeOption enc o = some b) :
    decodeOption dec (b ++ r) = some (o, r) := by
  cases o with
  | none =>
    simp only [encodeOption, Option.some.injEq] at h
    subst h
    rfl
  | some x =>
    simp only [encodeOption] at h
    cases hx : enc x with
    | none => rw [hx] at h; simp at h
    | some b1 =>
      rw [hx] at h
      simp only [Option.some.injEq] at h
      subst h
      have hd : dec (b1 ++ r) = some (x, r) := hel x (by simp) b1 r hx
      simp [decodeOption, hd]

theorem decode_vec_u8 (sz : VecSize) (l bs r : List Nat)
    (h : encode_vec sz u8Encode l = some bs) :
    decode_vec sz decU8 (bs ++ r) = some (l, r) :=
  decode_vec_encode_vec sz u8Encode decU8 l bs r
    (fun x _ b r1 hb => decU8_u8Encode x b r1 hb) h

theorem NodeType.fromU8_toU8 (nt : NodeType) :
    NodeType.fromU8 nt.toU8 = some nt := by
  cases nt <;> rfl

theorem roundtrip_NodeType (nt : NodeType) (bs r : List Nat)
    (h : nt.encode = some bs) : NodeType.decode (bs ++ r) = some (nt, r) := by
  simp only [NodeType.encode, Option.some.injEq] at h
  subst h
  simp [NodeType.decode, NodeType.fromU8_toU8]

theorem roundtrip_KeyPackage (kp : KeyPackage) (bs r : List Nat)
    (h : kp.encode = some bs) : KeyPackage.decode (bs ++ r) = some (kp, r) := by
  have d := decode_vec_u8 VecSize.VecU16 kp.bytes bs r h
  simp [KeyPackage.decode, d]

theorem roundtrip_HPKEPublicKey (pk : HPKEPublicKey) (bs r : List Nat)
    (h : pk.encode = some bs) : HPKEPublicKey.decode (bs ++ r) = some (pk, r) := by
  have d := decode_vec_u8 VecSize.VecU16 pk.bytes bs r h
  simp [HPKEPublicKey.decode, d]

theorem roundtrip_HpkeCiphertext (ct : HpkeCiphertext) (bs r : List Nat)
    (h : ct.encode = some bs) : HpkeCiphertext.decode (bs ++ r) = some (ct, r) := by
  have d := decode_vec_u8 VecSize.VecU16 ct.bytes bs r h
  simp [HpkeCiphertext.decode, d]

theorem roundtrip_ASTreeNode (a : ASTreeNode) (bs r : List Nat)
    (h : a.encode = some bs) : ASTreeNode.decode (bs ++ r) = some (a, r) := by
  have d := decode_vec_u8 VecSize.VecU8 a.secret bs r h
  simp [ASTreeNode.decode, d]

theorem roundtrip_ParentNode (pn : ParentNode) (bs r : List Nat)
    (hv : pn.valid = true) (h : pn.encode = some bs) :
    ParentNode.decode (bs ++ r) = some (pn, r) := by
  unfold ParentNode.valid at hv
  unfold ParentNode.encode at h
  split at h
  · rename_i b1 b2 h1 h2
    simp only [Option.some.injEq] at h
    subst h
    have d1 : HPKEPublicKey.decode (b1 ++ (b2 ++ r)) =
        some (pn.public_key, b2 ++ r) := roundtrip_HPKEPublicKey _ _ _ h1
    have d2 : decode_vec VecSize.VecU32 (readBE 4) (b2 ++ r) =
        some (pn.unmerged_leaves, r) := by
      refine decode_vec_encode_vec _ _ _ _ _ _ ?_ h2
      intro i hi b r1 hb
      simp only [Option.some.injEq] at hb
      subst hb
      exact readBE_beBytes_of_lt 4 i r1
        (of_decide_eq_true (List.all_eq_true.mp hv i hi))
    simp only [List.append_assoc]
    simp [ParentNode.decode, d1, d2]
  · simp at h

theorem roundtrip_Node (nd : Node) (bs r : List Nat)
    (hv : nd.valid = true) (h : nd.encode = some bs) :
    Node.decode (bs ++ r) = some (nd, r) := by
  unfold Node.encode at h
  split at h
  · rename_i b1 b2 b3 h1 h2 h3
    simp only [Option.some.injEq] at h
    subst h
    have d1 : NodeType.decode (b1 ++ (b2 ++ (b3 ++ r))) =
        some (nd.node_type, b2 ++ (b3 ++ r)) := roundtrip_NodeType _ _ _ h1
    have d2 : decodeOption KeyPackage.decode (b2 ++ (b3 ++ r)) =
        some (nd.key_package, b3 ++ r) :=
      decodeOption_encodeOption _ _ _ _ _
        (fun x _ b r1 hb => roundtrip_KeyPackage x b r1 hb) h2
    have d3 : decodeOption ParentNode.decode (b3 ++ r) = some (nd.node, r) := by
      refine decodeOption_encodeOption _ _ _ _ _ ?_ h3
      intro x hx b r1 hb
      refine roundtrip_ParentNode x b r1 ?_ hb
      rw [Option.mem_def] at hx
      unfold Node.valid at hv
      rw [hx] at hv
      exact hv
    simp only [List.append_assoc]
    simp [Node.decode, d1, d2, d3]
  · simp at h

theorem roundtrip_HPKEKeyPair (kp : HPKEKeyPair) (bs r : List Nat)
    (h : kp.encode = some bs) : HPKEKeyPair.decode (bs ++ r) = some (kp, r) := by
  unfold HPKEKeyPair.encode at h
  split at h
  · rename_i b1 b2 h1 h2
    simp only [Option.some.injEq] at h
    subst h
    have d1 := decode_vec_u8 VecSize.VecU16 kp.private_key b1 (b2 ++ r) h1
    have d2 := decode_vec_u8 VecSize.VecU16 kp.public_key b2 r h2
    simp only [List.append_assoc]
    simp [HPKEKeyPair.decode, d1, d2]
  · simp at h

theorem roundtrip_PathKeypairs (pk : PathKeypairs) (bs r : List Nat)
    (h : pk.encode = some bs) : PathKeypairs.decode (bs ++ r) = some (pk, r) := by
  have d : decode_vec VecSize.VecU32 HPKEKeyPair.decode (bs ++ r) =
      some (pk.keypairs, r) :=
    decode_vec_encode_vec _ _ _ _ _ _
      (fun x _ b r1 hb => roundtrip_HPKEKeyPair x b r1 hb) h
  simp [PathKeypairs.decode, d]

theorem roundtrip_RatchetTree (rt : RatchetTree) (bs r : List Nat)
    (hv : rt.valid = true) (h : rt.encode = some bs) :
    RatchetTree.decode (bs ++ r) = some (rt, r) := by
  unfold RatchetTree.valid at hv
  simp only [Bool.and_eq_true] at hv
  obtain ⟨⟨hcs, hnodes⟩, hidx⟩ := hv
  unfold RatchetTree.encode at h
  split at h
  · rename_i b2 b3 h2 h3
    simp only [Option.some.injEq] at h
    subst h
    have d1 := readBE_beBytes_of_lt 2 rt.ciphersuite
      (b2 ++ (b3 ++ (beBytes 4 rt.own_node_index ++ r))) (of_decide_eq_true hcs)
    have d2 : decode_vec VecSize.VecU32 Node.decode
        (b2 ++ (b3 ++ (beBytes 4 rt.own_node_index ++ r))) =
        some (rt.nodes, b3 ++ (beBytes 4 rt.own_node_index ++ r)) := by
      refine decode_vec_encode_vec _ _ _ _ _ _ ?_ h2
      intro nd hnd b r1 hb
      exact roundtrip_Node nd b r1 (List.all_eq_true.mp hnodes nd hnd) hb
    have d3 : PathKeypairs.decode (b3 ++ (beBytes 4 rt.own_node_index ++ r)) =
        some (rt.path_keypairs, beBytes 4 rt.own_node_index ++ r) :=
      roundtrip_PathKeypairs _ _ _ h3
    have d4 := readBE_beBytes_of_lt 4 rt.own_node_index r (of_decide_eq_true hidx)
    simp only [List.append_assoc]
    simp [RatchetTree.decode, d1, d2, d3, d4]
  · simp at h

theorem roundtrip_UpdatePathNode (n : UpdatePathNode) (bs r : List Nat)
    (h : n.encode = some bs) : UpdatePathNode.decode (bs ++ r) = some (n, r) := by
  unfold UpdatePathNode.encode at h
  split at h
  · rename_i b1 b2 h1 h2
    simp only [Option.some.injEq] at h
    subst h
    have d1 : HPKEPublicKey.decode (b1 ++ (b2 ++ r)) =
        some (n.public_key, b2 ++ r) := roundtrip_HPKEPublicKey _ _ _ h1
    have d2 : decode_vec VecSize.VecU32 HpkeCiphertext.decode (b2 ++ r) =
        some (n.encrypted_path_secret, r) :=
      decode_vec_encode_vec _ _ _ _ _ _
        (fun x _ b r1 hb => roundtrip_HpkeCiphertext x b r1 hb) h2
    simp only [List.append_assoc]
    simp [UpdatePathNode.decode, d1, d2]
  · simp at h

theorem roundtrip_UpdatePath (up : UpdatePath) (bs r : List Nat)
    (h : up.encode = some bs) : UpdatePath.decode (bs ++ r) = some (up, r) := by
  unfold UpdatePath.encode at h
  split at h
  · rename_i b1 b2 h1 h2
    simp only [Option.some.injEq] at h
    subst h
    have d1 : KeyPackage.decode (b1 ++ (b2 ++ r)) =
        some (up.leaf_key_package, b2 ++ r) := roundtrip_KeyPackage _ _ _ h1
    have d2 : decode_vec VecSize.VecU16 UpdatePathNode.decode (b2 ++ r) =
        some (up.nodes, r) :=
      decode_vec_encode_vec _ _ _ _ _ _
        (fun x _ b r1 hb => roundtrip_UpdatePathNode x b r1 hb) h2
    simp only [List.append_assoc]
    simp [UpdatePath.decode, d1, d2]
  · simp at h

theorem injective_of_roundtrip (enc : α → Option (List Nat))
    (dec : List Nat → Option (α × List Nat)) (valid : α → Bool)
    (h : DecodeRoundTrip enc dec valid) : EncodeInjectiveOn enc valid := by
  intro x y bs hx hy hex hey
  have h1 := h x bs [] hx hex
  have h2 := h y bs [] hy hey
  simpa using h1.symm.trans h2

theorem encode_vec_eq (sz : VecSize) (enc : α → Option (List Nat))
    (xs : List α) (bs : List Nat) (h : encode_vec sz enc xs = some bs) :
    bs = beBytes sz.width xs.length ++ encListD enc xs ∧
      xs.length < 256 ^ sz.width := by
  unfold encode_vec at h
  split at h
  · simp at h
  · rename_i payload hxs
    split at h
    · rename_i hlen
      simp only [Option.some.injEq] at h
      subst h
      simp [encListD, hxs, hlen]
    · simp at h

theorem encode_eq_RatchetTree (rt : RatchetTree) (bs : List Nat)
    (h : rt.encode = some bs) :
    bs = beBytes 2 rt.ciphersuite ++
        (beBytes 4 rt.nodes.length ++ encListD Node.encode rt.nodes) ++
        (beBytes 4 rt.path_keypairs.keypairs.length ++
          encListD HPKEKeyPair.encode rt.path_keypairs.keypairs) ++
        beBytes 4 rt.own_node_index ∧
      rt.nodes.length < 256 ^ 4 ∧
      rt.path_keypairs.keypairs.length < 256 ^ 4 := by
  unfold RatchetTree.encode at h
  split at h
  · rename_i b2 b3 h2 h3
    simp only [Option.some.injEq] at h
    subst h
    obtain ⟨e2, l2⟩ := encode_vec_eq _ _ _ _ h2
    unfold PathKeypairs.encode at h3
    obtain ⟨e3, l3⟩ := encode_vec_eq _ _ _ _ h3
    subst e2
    subst e3
    simp only [VecSize.width] at l2 l3 ⊢
    exact ⟨trivial, l2, l3⟩
  · simp at h

theorem encode_eq_UpdatePath (up : UpdatePath) (bs : List Nat)
    (h : up.encode = some bs) :
    bs = encodeD KeyPackage.encode up.leaf_key_package ++
        (beBytes 2 up.nodes.length ++ encListD UpdatePathNode.encode up.nodes) ∧
      up.nodes.length < 256 ^ 2 := by
  unfold UpdatePath.encode at h
  split at h
  · rename_i b1 b2 h1 h2
    simp only [Option.some.injEq] at h
    subst h
    obtain ⟨e2, l2⟩ := encode_vec_eq _ _ _ _ h2
    subst e2
    simp only [VecSize.width] at l2 ⊢
    exact ⟨by simp [encodeD, h1], l2⟩
  · simp at h

theorem encode_eq_UpdatePathNode (n : UpdatePathNode) (bs : List Nat)
    (h : n.encode = some bs) :
    bs = encodeD HPKEPublicKey.encode n.public_key ++
        (beBytes 4 n.encrypted_path_secret.length ++
          encListD HpkeCiphertext.encode n.encrypted_path_secret) ∧
      n.encrypted_path_secret.length < 256 ^ 4 := by
  unfold UpdatePathNode.encode at h
  split at h
  · rename_i b1 b2 h1 h2
    simp only [Option.some.injEq] at h
    subst h
    obtain ⟨e2, l2⟩ := encode_vec_eq _ _ _ _ h2
    subst e2
    simp only [VecSize.width] at l2 ⊢
    exact ⟨by simp [encodeD, h1], l2⟩
  · simp at h

theorem encode_eq_ASTreeNode (a : ASTreeNode) (bs : List Nat)
    (h : a.encode = some bs) :
    bs = a.secret.length :: a.secret ∧ a.secret.length < 256 := by
  unfold ASTreeNode.encode at h
  obtain ⟨e, l⟩ := encode_vec_eq _ _ _ _ h
  simp only [VecSize.width, pow_one] at l
  subst e
  refine ⟨?_, l⟩
  simp [beBytes, encListD, encList_u8, Nat.mod_eq_of_lt l]

theorem encode_eq_Node (nd : Node) (bs : List Nat) (h : nd.encode = some bs) :
    bs = nd.node_type.toU8 ::
      (encodeD (encodeOption KeyPackage.encode) nd.key_package ++
        encodeD (encodeOption ParentNode.encode) nd.node) := by
  unfold Node.encode at h
  split at h
  · rename_i b1 b2 b3 h1 h2 h3
    simp only [Option.some.injEq] at h
    subst h
    simp only [NodeType.encode, Option.some.injEq] at h1
    subst h1
    simp [encodeD, h2, h3]
  · simp at h

theorem decode_unknown_NodeType (b : Nat) (rest : List Nat)
    (hb : ∀ nt : NodeType, nt.toU8 ≠ b) :
    NodeType.decode (b :: rest) = none := by
  have h0 : ¬b = 0 := fun h => hb NodeType.Empty (by simp [NodeType.toU8, h])
  have h1 : ¬b = 1 := fun h => hb NodeType.Leaf (by simp [NodeType.toU8, h])
  have h2 : ¬b = 2 := fun h => hb NodeType.Parent (by simp [NodeType.toU8, h])
  simp [NodeType.decode, NodeType.fromU8, h0, h1, h2]

theorem decode_unknown_Node (b : Nat) (rest : List Nat)
    (hb : ∀ nt : NodeType, nt.toU8 ≠ b) :
    Node.decode (b :: rest) = none := by
  simp [Node.decode, decode_unknown_NodeType b rest hb]

/-- Claim C1: for every structure type with a Codec implementation
(NodeType, Node, PathKeypairs, RatchetTree, UpdatePathNode,
UpdatePath, ASTreeNode) and every valid value x of that type,
decoding the bytes produced by encoding x yields x again (decode is a
total left-inverse of encode), and encode is injective over the value
space actually produced by this system. -/
theorem C1_codec_roundtrip_injective :
    DecodeRoundTrip NodeType.encode NodeType.decode anyValid ∧
    DecodeRoundTrip Node.encode Node.decode Node.valid ∧
    DecodeRoundTrip PathKeypairs.encode PathKeypairs.decode anyValid ∧
    DecodeRoundTrip RatchetTree.encode RatchetTree.decode RatchetTree.valid ∧
    DecodeRoundTrip UpdatePathNode.encode UpdatePathNode.decode anyValid ∧
    DecodeRoundTrip UpdatePath.encode UpdatePath.decode anyValid ∧
    DecodeRoundTrip ASTreeNode.encode ASTreeNode.decode anyValid ∧
    EncodeInjectiveOn NodeType.encode anyValid ∧
    EncodeInjectiveOn Node.encode Node.valid ∧
    EncodeInjectiveOn PathKeypairs.encode anyValid ∧
    EncodeInjectiveOn RatchetTree.encode RatchetTree.valid ∧
    EncodeInjectiveOn UpdatePathNode.encode anyValid ∧
    EncodeInjectiveOn UpdatePath.encode anyValid ∧
    EncodeInjectiveOn ASTreeNode.encode anyValid := by
  have r1 : DecodeRoundTrip NodeType.encode NodeType.decode anyValid :=
    fun x bs rest _ h => roundtrip_NodeType x bs rest h
  have r2 : DecodeRoundTrip Node.encode Node.decode Node.valid :=
    fun x bs rest hv h => roundtrip_Node x bs rest hv h
  have r3 : DecodeRoundTrip PathKeypairs.encode PathKeypairs.decode anyValid :=
    fun x bs rest _ h => roundtrip_PathKeypairs x bs rest h
  have r4 : DecodeRoundTrip RatchetTree.encode RatchetTree.decode
      RatchetTree.valid :=
    fun x bs rest hv h => roundtrip_RatchetTree x bs rest hv h
  have r5 : DecodeRoundTrip UpdatePathNode.encode UpdatePathNode.decode
      anyValid :=
    fun x bs rest _ h => roundtrip_UpdatePathNode x bs rest h
  have r6 : DecodeRoundTrip UpdatePath.encode UpdatePath.decode anyValid :=
    fun x bs rest _ h => roundtrip_UpdatePath x bs rest h
  have r7 : DecodeRoundTrip ASTreeNode.encode ASTreeNode.decode anyValid :=
    fun x bs rest _ h => roundtrip_ASTreeNode x bs rest h
  exact ⟨r1, r2, r3, r4, r5, r6, r7,
    injective_of_roundtrip _ _ _ r1, injective_of_roundtrip _ _ _ r2,
    injective_of_roundtrip _ _ _ r3, injective_of_roundtrip _ _ _ r4,
    injective_of_roundtrip _ _ _ r5, injective_of_roundtrip _ _ _ r6,
    injective_of_roundtrip _ _ _ r7⟩

/-- Witness for C1: the round trip evaluated at one concrete value of
each of the seven types. -/
theorem C1_codec_roundtrip_injective_witness :
    NodeType.decode (encodeD NodeType.encode NodeType.Leaf ++ [9]) =
      some (NodeType.Leaf, [9]) ∧
    Node.decode (encodeD Node.encode nodeP ++ []) = some (nodeP, []) ∧
    PathKeypairs.decode (encodeD PathKeypairs.encode pkps0 ++ []) =
      some (pkps0, []) ∧
    RatchetTree.decode (encodeD RatchetTree.encode rt0 ++ []) =
      some (rt0, []) ∧
    UpdatePathNode.decode (encodeD UpdatePathNode.encode upn0 ++ []) =
      some (upn0, []) ∧
    UpdatePath.decode (encodeD UpdatePath.encode up0 ++ []) = some (up0, []) ∧
    ASTreeNode.decode (encodeD ASTreeNode.encode ast0 ++ []) =
      some (ast0, []) :=
  ⟨C1_codec_roundtrip_injective.1 NodeType.Leaf _ [9] rfl rfl,
   C1_codec_roundtrip_injective.2.1 nodeP _ [] (by decide) rfl,
   C1_codec_roundtrip_injective.2.2.1 pkps0 _ [] rfl rfl,
   C1_codec_roundtrip_injective.2.2.2.1 rt0 _ [] (by decide) rfl,
   C1_codec_roundtrip_injective.2.2.2.2.1 upn0 _ [] rfl rfl,
   C1_codec_roundtrip_injective.2.2.2.2.2.1 up0 _ [] rfl rfl,
   C1_codec_roundtrip_injective.2.2.2.2.2.2.1 ast0 _ [] rfl rfl⟩

/-- Claim C2 (counterexample): the claim states the update path's
node sequence is written with a 4-byte count prefix; the encoder uses
`VecSize::VecU16`, a 2-byte prefix, so on an update path with an
empty key package and no nodes the output is the 4 bytes
`[0, 0, 0, 0]` (2-byte key-package length, 2-byte node count), not
the 6 bytes a 4-byte count prefix would give. -/
theorem C2_counterexample :
    UpdatePath.encode upEmpty = some [0, 0, 0, 0] ∧
    ¬([0, 0, 0, 0] = encodeD KeyPackage.encode upEmpty.leaf_key_package ++
        (beBytes 4 upEmpty.nodes.length ++
          encListD UpdatePathNode.encode upEmpty.nodes)) := by
  decide

/-- Claim C2 (amended): for every RatchetTree value the encoder
writes the tree's node sequence with a 4-byte count-style length
prefix, for every UpdatePath value it writes the update path's node
sequence with a 2-byte count-style length prefix, and per-node secret
and key byte blobs are written with 1- or 2-byte length-style
prefixes. -/
theorem C2_amended_prefix_widths :
    (∀ rt : RatchetTree, ∀ bs, rt.encode = some bs →
      bs = beBytes 2 rt.ciphersuite ++
        (beBytes 4 rt.nodes.length ++ encListD Node.encode rt.nodes) ++
        (beBytes 4 rt.path_keypairs.keypairs.length ++
          encListD HPKEKeyPair.encode rt.path_keypairs.keypairs) ++
        beBytes 4 rt.own_node_index) ∧
    (∀ up : UpdatePath, ∀ bs, up.encode = some bs →
      bs = encodeD KeyPackage.encode up.leaf_key_package ++
        (beBytes 2 up.nodes.length ++
          encListD UpdatePathNode.encode up.nodes)) ∧
    (∀ a : ASTreeNode, ∀ bs, a.encode = some bs →
      bs = beBytes 1 a.secret.length ++ a.secret) ∧
    (∀ pk : HPKEPublicKey, ∀ bs, pk.encode = some bs →
      bs = beBytes 2 pk.bytes.length ++ pk.bytes) := by
  refine ⟨fun rt bs h => (encode_eq_RatchetTree rt bs h).1,
    fun up bs h => (encode_eq_UpdatePath up bs h).1,
    fun a bs h => ?_, fun pk bs h => ?_⟩
  · obtain ⟨e, l⟩ := encode_eq_ASTreeNode a bs h
    subst e
    simp [beBytes, Nat.mod_eq_of_lt l]
  · unfold HPKEPublicKey.encode at h
    obtain ⟨e, l⟩ := encode_vec_eq _ _ _ _ h
    subst e
    simp [encListD, encList_u8, VecSize.width]

/-- Witness for the amended C2: the four layouts evaluated at
concrete values. -/
theorem C2_amended_prefix_widths_witness :
    encodeD RatchetTree.encode rt0 = beBytes 2 rt0.ciphersuite ++
      (beBytes 4 rt0.nodes.length ++ encListD Node.encode rt0.nodes) ++
      (beBytes 4 rt0.path_keypairs.keypairs.length ++
        encListD HPKEKeyPair.encode rt0.path_keypairs.keypairs) ++
      beBytes 4 rt0.own_node_index ∧
    encodeD UpdatePath.encode up0 =
      encodeD KeyPackage.encode up0.leaf_key_package ++
        (beBytes 2 up0.nodes.length ++
          encListD UpdatePathNode.encode up0.nodes) ∧
    encodeD ASTreeNode.encode ast0 =
      beBytes 1 ast0.secret.length ++ ast0.secret ∧
    encodeD HPKEPublicKey.encode ⟨[3]⟩ = beBytes 2 1 ++ [3] :=
  ⟨C2_amended_prefix_widths.1 rt0 _ rfl,
   C2_amended_prefix_widths.2.1 up0 _ rfl,
   C2_amended_prefix_widths.2.2.1 ast0 _ rfl,
   C2_amended_prefix_widths.2.2.2 ⟨[3]⟩ _ rfl⟩

/-- Claim C3: for every UpdatePath value, encode emits the leaf
key-package first, then the node sequence with a 2-byte count prefix;
and for every UpdatePathNode, encode emits the public key first, then
the ciphertext sequence with a 4-byte count prefix. -/
theorem C3_updatepath_layout :
    (∀ up : UpdatePath, ∀ bs, up.encode = some bs →
      bs = encodeD KeyPackage.encode up.leaf_key_package ++
        (beBytes 2 up.nodes.length ++
          encListD UpdatePathNode.encode up.nodes)) ∧
    (∀ n : UpdatePathNode, ∀ bs, n.encode = some bs →
      bs = encodeD HPKEPublicKey.encode n.public_key ++
        (beBytes 4 n.encrypted_path_secret.length ++
          encListD HpkeCiphertext.encode n.encrypted_path_secret)) :=
  ⟨fun up bs h => (encode_eq_UpdatePath up bs h).1,
   fun n bs h => (encode_eq_UpdatePathNode n bs h).1⟩

/-- Witness for C3: the two layouts evaluated at concrete values. -/
theorem C3_updatepath_layout_witness :
    encodeD UpdatePath.encode up0 =
      encodeD KeyPackage.encode up0.leaf_key_package ++
        (beBytes 2 up0.nodes.length ++
          encListD UpdatePathNode.encode up0.nodes) ∧
    encodeD UpdatePathNode.encode upn0 =
      encodeD HPKEPublicKey.encode upn0.public_key ++
        (beBytes 4 upn0.encrypted_path_secret.length ++
          encListD HpkeCiphertext.encode upn0.encrypted_path_secret) :=
  ⟨C3_updatepath_layout.1 up0 _ rfl, C3_updatepath_layout.2 upn0 _ rfl⟩

/-- Claim C4: for MIXED_CIPHERTEXT_WIRE_FORMAT_POLICY (outgoing
AlwaysCiphertext, incoming Mixed), is_compatible_with on the incoming
half returns true for both WireFormat::PrivateMessage and
WireFormat::PublicMessage, while the WireFormat derived from the
outgoing half is WireFormat::PrivateMessage. -/
theorem C4_mixed_ciphertext_policy :
    MIXED_CIPHERTEXT_WIRE_FORMAT_POLICY.incoming.is_compatible_with
      WireFormat.PrivateMessage = true ∧
    MIXED_CIPHERTEXT_WIRE_FORMAT_POLICY.incoming.is_compatible_with
      WireFormat.PublicMessage = true ∧
    WireFormat.fromOutgoing MIXED_CIPHERTEXT_WIRE_FORMAT_POLICY.outgoing =
      WireFormat.PrivateMessage := by
  decide

/-- Claim C5: for every RatchetTree value, encode emits exactly, in
this order: the ciphersuite id, the count-prefixed node sequence, the
count-prefixed PathKeypairs list, and the member's own leaf index as
a plain integer. -/
theorem C5_ratchettree_layout :
    ∀ rt : RatchetTree, ∀ bs, rt.encode = some bs →
      bs = beBytes 2 rt.ciphersuite ++
        (beBytes 4 rt.nodes.length ++ encListD Node.encode rt.nodes) ++
        (beBytes 4 rt.path_keypairs.keypairs.length ++
          encListD HPKEKeyPair.encode rt.path_keypairs.keypairs) ++
        beBytes 4 rt.own_node_index :=
  fun rt bs h => (encode_eq_RatchetTree rt bs h).1

/-- Witness for C5: the layout evaluated at a concrete tree. -/
theorem C5_ratchettree_layout_witness :
    encodeD RatchetTree.encode rt0 = beBytes 2 rt0.ciphersuite ++
      (beBytes 4 rt0.nodes.length ++ encListD Node.encode rt0.nodes) ++
      (beBytes 4 rt0.path_keypairs.keypairs.length ++
        encListD HPKEKeyPair.encode rt0.path_keypairs.keypairs) ++
      beBytes 4 rt0.own_node_index :=
  C5_ratchettree_layout rt0 _ rfl

/-- Claim C6: for every Node and NodeType value, the encoding begins
with a single-byte discriminant immediately followed by only that
value's remaining payload, and decoding a buffer whose first byte is
not a recognized discriminant is an error. -/
theorem C6_tagged_variants :
    (∀ nt : NodeType, nt.encode = some [nt.toU8]) ∧
    (∀ nd : Node, ∀ bs, nd.encode = some bs →
      bs = nd.node_type.toU8 ::
        (encodeD (encodeOption KeyPackage.encode) nd.key_package ++
          encodeD (encodeOption ParentNode.encode) nd.node)) ∧
    (∀ b : Nat, ∀ rest, (∀ nt : NodeType, nt.toU8 ≠ b) →
      NodeType.decode (b :: rest) = none ∧ Node.decode (b :: rest) = none) :=
  ⟨fun _ => rfl, encode_eq_Node,
   fun b rest hb =>
     ⟨decode_unknown_NodeType b rest hb, decode_unknown_Node b rest hb⟩⟩

/-- Witness for C6: the layout at a concrete node and the decode
error at the unrecognized discriminant byte 7. -/
theorem C6_tagged_variants_witness :
    encodeD Node.encode nodeP = NodeType.Parent.toU8 ::
      (encodeD (encodeOption KeyPackage.encode) nodeP.key_package ++
        encodeD (encodeOption ParentNode.encode) nodeP.node) ∧
    NodeType.decode [7] = none ∧ Node.decode [7] = none :=
  ⟨C6_tagged_variants.2.1 nodeP _ rfl,
   (C6_tagged_variants.2.2 7 [] (by intro nt; cases nt <;> decide)).1,
   (C6_tagged_variants.2.2 7 [] (by intro nt; cases nt <;> decide)).2⟩

/-- Claim C7: for every ASTreeNode value, encode emits exactly one
byte blob — the node's secret — prefixed by a 1-byte length, and
nothing else. -/
theorem C7_astreenode_layout :
    ∀ a : ASTreeNode, ∀ bs, a.encode = some bs →
      bs = a.secret.length :: a.secret ∧ a.secret.length < 256 :=
  encode_eq_ASTreeNode

/-- Witness for C7: the layout evaluated at a concrete secret. -/
theorem C7_astreenode_layout_witness :
    encodeD ASTreeNode.encode ast0 = ast0.secret.length :: ast0.secret ∧
      ast0.secret.length < 256 :=
  C7_astreenode_layout ast0 _ rfl

/-- Claim C8: every one of the four policies in WIRE_FORMAT_POLICIES
is self-consistent: the incoming half's is_compatible_with returns
true for the WireFormat obtained by converting the outgoing half, so
a group always accepts the framing it itself produces. -/
theorem C8_policies_self_consistent :
    (WIRE_FORMAT_POLICIES.all fun p =>
      p.incoming.is_compatible_with (WireFormat.fromOutgoing p.outgoing)) =
      true := by
  decide

/-- Claim C9: the default WireFormatPolicy equals
PURE_CIPHERTEXT_WIRE_FORMAT_POLICY, so a default-built MlsGroupConfig
accepts only PrivateMessage for incoming handshake traffic and always
chooses PrivateMessage for outgoing handshake traffic, and its
max_past_epochs is 0. -/
theorem C9_default_config :
    WireFormatPolicy.defaultPolicy = PURE_CIPHERTEXT_WIRE_FORMAT_POLICY ∧
    MlsGroupConfig.defaultConfig.wire_format_policy =
      PURE_CIPHERTEXT_WIRE_FORMAT_POLICY ∧
    MlsGroupConfig.defaultConfig.wire_format_policy.incoming.is_compatible_with
      WireFormat.PrivateMessage = true ∧
    MlsGroupConfig.defaultConfig.wire_format_policy.incoming.is_compatible_with
      WireFormat.PublicMessage = false ∧
    WireFormat.fromOutgoing
      MlsGroupConfig.defaultConfig.wire_format_policy.outgoing =
      WireFormat.PrivateMessage ∧
    MlsGroupConfig.defaultConfig.max_past_epochs = 0 := by
  decide

/-- Claim C10: every setter of the builder changes exactly the named
field of the accumulated configuration, leaves every other field
unchanged (expressed as a record update of that one field), and build
returns the accumulated configuration unmodified. -/
theorem C10_builder_frame :
    (∀ b v, (MlsGroupConfigBuilder.wire_format_policy b v).config =
      { b.config with wire_format_policy := v }) ∧
    (∀ b v, (MlsGroupConfigBuilder.padding_size b v).config =
      { b.config with padding_size := v }) ∧
    (∀ b v, (MlsGroupConfigBuilder.max_past_epochs b v).config =
      { b.config with max_past_epochs := v }) ∧
    (∀ b v, (MlsGroupConfigBuilder.number_of_resumption_psks b v).config =
      { b.config with number_of_resumption_psks := v }) ∧
    (∀ b v, (MlsGroupConfigBuilder.use_ratchet_tree_extension b v).config =
      { b.config with use_ratchet_tree_extension := v }) ∧
    (∀ b v, (MlsGroupConfigBuilder.required_capabilities b v).config =
      { b.config with required_capabilities := v }) ∧
    (∀ b v, (MlsGroupConfigBuilder.sender_ratchet_configuration b v).config =
      { b.config with sender_ratchet_configuration := v }) ∧
    (∀ b v, (MlsGroupConfigBuilder.lifetime b v).config =
      { b.config with lifetime := v }) ∧
    (∀ b v, (MlsGroupConfigBuilder.crypto_config b v).config =
      { b.config with crypto_config := v }) ∧
    (∀ b v, (MlsGroupConfigBuilder.external_senders b v).config =
      { b.config with external_senders := v }) ∧
    (∀ b, MlsGroupConfigBuilder.build b = b.config) :=
  ⟨fun _ _ => rfl, fun _ _ => rfl, fun _ _ => rfl, fun _ _ => rfl,
   fun _ _ => rfl, fun _ _ => rfl, fun _ _ => rfl, fun _ _ => rfl,
   fun _ _ => rfl, fun _ _ => rfl, fun _ => rfl⟩

end OpenMLS
